import Mathlib

/-!
Verification of the leader-election core of boxme/Learning-Raft.

The embedding covers the two source files:
* `src/raft/raft.go` — the `ConsensusModule` data model, `runElectionTimer`
  and `electionTimeout`;
* `src/unnamed/part_000` — the `Server` transport wrapper and `Server.Call`.

Time is modelled as Go models it: `time.Duration` and timestamps are
integer nanosecond counts, `time.Millisecond = 1000000` nanoseconds, and
`time.Since(t)` at instant `now` is `now - t`.  Randomness is modelled by
passing the value produced by `rand.Intn(150)` explicitly: `rand.Intn(n)`
always returns a value in `[0, n)`, which we realise as `r % 150` for an
arbitrary seed `r`.  Functions whose bodies are not under `src/`
(`startElection`, the higher-term step-down, the vote handler, shutdown)
are modelled from the spec and carry a doc comment saying so.
-/

namespace Raft

/-- The role of a Raft node, from `src/raft/raft.go` (`CMState`). -/
inductive CMState
  | Follower
  | Candidate
  | Leader
  | Dead
deriving DecidableEq, Repr

/-- One nanosecond-count `time.Duration` of a millisecond. -/
def millisecond : Int := 1000000

/-- The consensus-state fields of `ConsensusModule` from `src/raft/raft.go`.
The mutex is the lock discipline, not data, and is modelled separately;
`votedFor = -1` encodes "no vote cast this term". -/
structure ConsensusModule where
  id : Int
  peerIds : List Int
  state : CMState
  electionResetEvent : Int
  currentTerm : Int
  votedFor : Int
deriving DecidableEq, Repr

/-- Embeds `electionTimeout` from `src/raft/raft.go`:
`time.Duration(150+rand.Intn(150)) * time.Millisecond`.
The seed `r` stands for the pseudo-random state; `r % 150` is the value
`rand.Intn(150)` returns. -/
def electionTimeout (r : Nat) : Int :=
  ((150 + r % 150 : Nat) : Int) * millisecond

/-- What a single tick of the `runElectionTimer` loop decides, in the order
the source checks: role first, then term, then elapsed time. -/
inductive TickOutcome
  | exitRole
  | exitTerm
  | fire
  | keepWaiting
deriving DecidableEq, Repr

/-- The decision of one tick of the loop body of `runElectionTimer`
(`src/raft/raft.go` lines 63-83), taken with the lock held:
first bail out if the state is neither `Candidate` nor `Follower`,
then bail out if the term moved past `termStarted`, then fire if
`time.Since(cm.electionResetEvent) >= timeoutDuration`. -/
def tickOutcome (cm : ConsensusModule) (termStarted timeoutDuration now : Int) :
    TickOutcome :=
  if cm.state ≠ CMState.Candidate ∧ cm.state ≠ CMState.Follower then
    TickOutcome.exitRole
  else if termStarted ≠ cm.currentTerm then
    TickOutcome.exitTerm
  else if now - cm.electionResetEvent ≥ timeoutDuration then
    TickOutcome.fire
  else
    TickOutcome.keepWaiting

/-- The observable result of one tick: the module state afterwards, whether
the tick made `runElectionTimer` return, and whether it called
`startElection`. -/
structure TickResult where
  cm : ConsensusModule
  returned : Bool
  firedElection : Bool
deriving DecidableEq, Repr

/-- One iteration of the `runElectionTimer` loop.  `se` is the
`startElection` body (only reached on `fire`); every other branch leaves
the module untouched, matching the source, which only reads fields. -/
def runElectionTimerTick (se : ConsensusModule → ConsensusModule)
    (termStarted timeoutDuration now : Int) (cm : ConsensusModule) : TickResult :=
  match tickOutcome cm termStarted timeoutDuration now with
  | TickOutcome.exitRole => ⟨cm, true, false⟩
  | TickOutcome.exitTerm => ⟨cm, true, false⟩
  | TickOutcome.fire => ⟨se cm, true, true⟩
  | TickOutcome.keepWaiting => ⟨cm, false, false⟩

/-- The observable result of a whole `runElectionTimer` run over a list of
tick instants: the final module state, how many times `startElection` was
called, and the timeout value each processed tick compared against. -/
structure TimerRun where
  cm : ConsensusModule
  fireCount : Nat
  timeoutsUsed : List Int
deriving DecidableEq, Repr

/-- The ticker loop of `runElectionTimer` (`src/raft/raft.go` lines 60-84):
processes tick instants in order with the fixed `termStarted` and
`timeoutDuration` captured before the loop, stopping at the first tick
that returns. -/
def runElectionTimerLoop (se : ConsensusModule → ConsensusModule)
    (termStarted timeoutDuration : Int) :
    List Int → ConsensusModule → TimerRun
  | [], cm => ⟨cm, 0, []⟩
  | now :: rest, cm =>
    let t := runElectionTimerTick se termStarted timeoutDuration now cm
    if t.returned then
      ⟨t.cm, if t.firedElection then 1 else 0, [timeoutDuration]⟩
    else
      let r := runElectionTimerLoop se termStarted timeoutDuration rest t.cm
      ⟨r.cm, r.fireCount, timeoutDuration :: r.timeoutsUsed⟩

/-- Embeds `runElectionTimer` from `src/raft/raft.go`: samples the timeout
once via `electionTimeout`, captures `termStarted := cm.currentTerm`, then
runs the ticker loop. -/
def runElectionTimer (se : ConsensusModule → ConsensusModule) (r : Nat)
    (times : List Int) (cm : ConsensusModule) : TimerRun :=
  runElectionTimerLoop se cm.currentTerm (electionTimeout r) times cm

/-- Modelled from the spec: `startElection` is referenced by
`runElectionTimer` but its body is not under `src/`.  Per §4.1 it is
"invoked with the lock held, transitions role to `Candidate`, increments
`currentTerm`, sets `votedFor = self`, refreshes `electionResetEvent`".
`now` is the instant at which the refresh happens. -/
def startElection (now : Int) (cm : ConsensusModule) : ConsensusModule :=
  { cm with
      state := CMState.Candidate
      currentTerm := cm.currentTerm + 1
      votedFor := cm.id
      electionResetEvent := now }

/-- Modelled from the spec: `reportHigherTerm(peerTerm)` is not under
`src/`.  Per §4.1 it is "called whenever any RPC interaction reveals a
term greater than `currentTerm`", and sets `currentTerm = peerTerm`,
`votedFor = none`, `role = Follower`, refreshes `electionResetEvent`.
The role-transition table lists `Candidate/Leader/Follower → Follower`
for a higher term and states "no transition leaves Dead", so a dead
module is left unchanged, as is one for which the term is not higher. -/
def reportHigherTerm (peerTerm now : Int) (cm : ConsensusModule) : ConsensusModule :=
  if cm.state = CMState.Dead then cm
  else if peerTerm > cm.currentTerm then
    { cm with
        state := CMState.Follower
        currentTerm := peerTerm
        votedFor := -1
        electionResetEvent := now }
  else cm

/-- Modelled from the spec: the vote-granting policy of §4.1 is not under
`src/`.  A node grants a vote for `(candidateTerm, candidateId)` iff
`candidateTerm ≥ currentTerm` (adopting the candidate's term first if
strictly greater, per `reportHigherTerm`) and `votedFor` is none (`-1`)
or already `candidateId`; granting refreshes `electionResetEvent`.  A
dead module does not transition. -/
def handleRequestVote (candidateTerm candidateId now : Int)
    (cm : ConsensusModule) : ConsensusModule :=
  if cm.state = CMState.Dead then cm
  else
    let cm1 := reportHigherTerm candidateTerm now cm
    if candidateTerm ≥ cm1.currentTerm ∧
        (cm1.votedFor = -1 ∨ cm1.votedFor = candidateId) then
      { cm1 with votedFor := candidateId, electionResetEvent := now }
    else cm1

/-- Modelled from the spec: the majority transition of §4.1 is not under
`src/`.  Once the tally reaches a majority, the node transitions to
`Leader` "if — and only if — role is still `Candidate` in that term". -/
def winElection (term : Int) (cm : ConsensusModule) : ConsensusModule :=
  if cm.state = CMState.Candidate ∧ cm.currentTerm = term then
    { cm with state := CMState.Leader }
  else cm

/-- Modelled from the spec: shutdown is not under `src/`.  Per §4.1 and
§7, a shutdown request "drives role to `Dead`". -/
def stop (cm : ConsensusModule) : ConsensusModule :=
  { cm with state := CMState.Dead }

/-- An operation on a `ConsensusModule`: one tick of an election timer
(with its captured term, its sampled timeout and the tick instant), a
higher-term observation, an inbound vote request, the majority
transition, or shutdown. -/
inductive Op
  | timerTick (termStarted timeoutDuration now : Int)
  | higherTerm (peerTerm now : Int)
  | requestVote (candidateTerm candidateId now : Int)
  | winMajority (term : Int)
  | shutdown
deriving DecidableEq, Repr

/-- Applies one operation to the module state. -/
def applyOp (cm : ConsensusModule) : Op → ConsensusModule
  | Op.timerTick termStarted timeoutDuration now =>
    (runElectionTimerTick (startElection now) termStarted timeoutDuration now cm).cm
  | Op.higherTerm peerTerm now => reportHigherTerm peerTerm now cm
  | Op.requestVote candidateTerm candidateId now =>
    handleRequestVote candidateTerm candidateId now cm
  | Op.winMajority term => winElection term cm
  | Op.shutdown => stop cm

/-- Applies a sequence of operations, first element first. -/
def applyOps (cm : ConsensusModule) : List Op → ConsensusModule
  | [] => cm
  | op :: rest => applyOps (applyOp cm op) rest

/-! ## Transport: the `Server` wrapper of `src/unnamed/part_000` -/

/-- A live `*rpc.Client` handle is abstracted to an identifier; the
behaviour of its `Call` method is passed in as a function. -/
abbrev Client := Nat

/-- Why `Server.Call` can fail: the peer has no live handle (the source's
"call client %d after it's closed" error), or the underlying RPC itself
returned an error. -/
inductive CallError
  | peerUnavailable (id : Int)
  | rpcFailed (msg : String)
deriving DecidableEq, Repr

/-- The `Server` of `src/unnamed/part_000`.  `peerClients` models the Go
`map[int]*rpc.Client`: a key bound to `none` is a stored nil pointer
(torn down at shutdown), an absent key is a peer never registered. -/
structure Server where
  serverId : Int
  peerIds : List Int
  peerClients : List (Int × Option Client)
deriving DecidableEq, Repr

/-- A Go map read `s.peerClients[id]`: an absent key yields the zero
value, which for a pointer type is nil (`none`). -/
def lookupGo (m : List (Int × Option Client)) (id : Int) : Option Client :=
  match m.lookup id with
  | some v => v
  | none => none

/-- The result of `peer.Call(serviceMethod, args, reply)` lifted into the
`CallError` taxonomy: the RPC's own outcome, whatever it is. -/
def forwardRPC {α β : Type} (rpc : Client → String → α → Except String β)
    (peer : Client) (serviceMethod : String) (args : α) : Except CallError β :=
  match rpc peer serviceMethod args with
  | Except.error msg => Except.error (CallError.rpcFailed msg)
  | Except.ok reply => Except.ok reply

/-- Embeds `Server.Call` from `src/unnamed/part_000`, instrumented with
whether the underlying RPC was invoked: look up the handle (under the
server mutex), then either fail with the peer-unavailable error without
any RPC, or forward to the handle's `Call` and return its result. -/
def ServerCall {α β : Type} (s : Server)
    (rpc : Client → String → α → Except String β)
    (id : Int) (serviceMethod : String) (args : α) :
    Except CallError β × Bool :=
  match lookupGo s.peerClients id with
  | none => (Except.error (CallError.peerUnavailable id), false)
  | some peer => (forwardRPC rpc peer serviceMethod args, true)

/-! ## Lock discipline: event traces for the mutexes and network calls -/

/-- The two mutexes of the system: `Server.mu` and `ConsensusModule.mu`. -/
inductive LockId
  | serverMu
  | cmMu
deriving DecidableEq, Repr

/-- The events relevant to the lock discipline: acquiring or releasing a
mutex, reading the peer table, reading or mutating consensus state, and
performing a blocking network call. -/
inductive Event
  | acquire (l : LockId)
  | release (l : LockId)
  | lookupPeer (id : Int)
  | readState
  | mutateState
  | netCall
deriving DecidableEq, Repr

/-- Checks, given the multiset of locks currently held, that every
`netCall` in the trace happens while no lock is held. -/
def netFreeOfLocks (held : List LockId) : List Event → Bool
  | [] => true
  | Event.acquire l :: rest => netFreeOfLocks (l :: held) rest
  | Event.release l :: rest => netFreeOfLocks (held.erase l) rest
  | Event.netCall :: rest => held.isEmpty && netFreeOfLocks held rest
  | _ :: rest => netFreeOfLocks held rest

/-- The event trace of `Server.Call` (`src/unnamed/part_000` lines 27-38):
acquire `s.mu`, read `s.peerClients[id]`, release `s.mu`, and only then —
if a handle was found — invoke the RPC. -/
def serverCallEvents (id : Int) (found : Bool) : List Event :=
  [Event.acquire LockId.serverMu, Event.lookupPeer id,
   Event.release LockId.serverMu] ++
  (if found then [Event.netCall] else [])

/-- The event trace of one tick of `runElectionTimer`
(`src/raft/raft.go` lines 63-83): acquire `cm.mu`, read state (and mutate
it via `startElection` when the timeout fired), release `cm.mu`.  No
network call occurs inside the tick. -/
def timerTickEvents (fired : Bool) : List Event :=
  [Event.acquire LockId.cmMu, Event.readState] ++
  (if fired then [Event.mutateState] else []) ++
  [Event.release LockId.cmMu]

/-- Modelled from the spec: the network phase of an election is not under
`src/`.  Per §5, `startElection` "reads/mutates state under the lock,
releases it, then issues the network calls, then re-acquires the lock per
reply to apply results". -/
def replyHandlerEvents : List Event :=
  [Event.netCall, Event.acquire LockId.cmMu, Event.readState,
   Event.mutateState, Event.release LockId.cmMu]

/-- Modelled from the spec: the whole election trace of §5 — state
mutation under the module lock, then one network call and one
lock-guarded reply handler per peer. -/
def electionNetworkEvents (numPeers : Nat) : List Event :=
  [Event.acquire LockId.cmMu, Event.mutateState, Event.release LockId.cmMu] ++
  (List.replicate numPeers replyHandlerEvents).flatten

/-! ## Concrete example values, used by the witness theorems -/

/-- A freshly constructed follower module: node 0 in a 3-node cluster,
term 0, no vote cast. -/
def cmFollower : ConsensusModule :=
  ⟨0, [1, 2], CMState.Follower, 0, 0, -1⟩

/-- A module that has been shut down at term 5. -/
def cmDead : ConsensusModule :=
  ⟨0, [1, 2], CMState.Dead, 0, 5, 1⟩

/-- A server whose peer 1 has a live handle, whose peer 2 was torn down
(stored nil), and which never registered a peer 3. -/
def serverEx : Server :=
  ⟨0, [1, 2], [(1, some 11), (2, none)]⟩

/-- A sample RPC behaviour: every call succeeds and echoes handle plus
argument. -/
def rpcEx : Client → String → Nat → Except String Nat :=
  fun c _ a => Except.ok (c + a)

/-! ## Helper lemmas about the election timer -/

theorem tickOutcome_exitRole (cm : ConsensusModule)
    (termStarted timeoutDuration now : Int)
    (h : cm.state ≠ CMState.Candidate ∧ cm.state ≠ CMState.Follower) :
    tickOutcome cm termStarted timeoutDuration now = TickOutcome.exitRole := by
  unfold tickOutcome
  rw [if_pos h]

theorem tick_bails (se : ConsensusModule → ConsensusModule)
    (termStarted timeoutDuration now : Int) (cm : ConsensusModule)
    (h : (cm.state ≠ CMState.Candidate ∧ cm.state ≠ CMState.Follower) ∨
      termStarted ≠ cm.currentTerm) :
    runElectionTimerTick se termStarted timeoutDuration now cm = ⟨cm, true, false⟩ := by
  unfold runElectionTimerTick tickOutcome
  rcases h with h | h
  · rw [if_pos h]
  · by_cases hrole : cm.state ≠ CMState.Candidate ∧ cm.state ≠ CMState.Follower
    · rw [if_pos hrole]
    · rw [if_neg hrole, if_pos h]

theorem tick_fires (se : ConsensusModule → ConsensusModule)
    (termStarted timeoutDuration now : Int) (cm : ConsensusModule)
    (hstate : cm.state = CMState.Follower ∨ cm.state = CMState.Candidate)
    (hterm : termStarted = cm.currentTerm)
    (helapsed : now - cm.electionResetEvent ≥ timeoutDuration) :
    runElectionTimerTick se termStarted timeoutDuration now cm = ⟨se cm, true, true⟩ := by
  unfold runElectionTimerTick tickOutcome
  have hrole : ¬(cm.state ≠ CMState.Candidate ∧ cm.state ≠ CMState.Follower) := by
    rcases hstate with h | h <;> simp [h]
  rw [if_neg hrole, if_neg (by simp [hterm]), if_pos helapsed]

theorem tick_cm_ite (se : ConsensusModule → ConsensusModule)
    (termStarted timeoutDuration now : Int) (cm : ConsensusModule) :
    (runElectionTimerTick se termStarted timeoutDuration now cm).cm =
      (if (runElectionTimerTick se termStarted timeoutDuration now cm).firedElection
        then se cm else cm) := by
  unfold runElectionTimerTick
  cases tickOutcome cm termStarted timeoutDuration now <;> simp

theorem loop_fireCount_le_one (se : ConsensusModule → ConsensusModule)
    (termStarted timeoutDuration : Int) :
    ∀ (times : List Int) (cm : ConsensusModule),
      (runElectionTimerLoop se termStarted timeoutDuration times cm).fireCount ≤ 1
  | [], cm => by simp [runElectionTimerLoop]
  | now :: rest, cm => by
    simp only [runElectionTimerLoop]
    split
    · split <;> simp
    · exact loop_fireCount_le_one se termStarted timeoutDuration rest _

theorem loop_timeoutsUsed_eq (se : ConsensusModule → ConsensusModule)
    (termStarted timeoutDuration : Int) :
    ∀ (times : List Int) (cm : ConsensusModule) (d : Int),
      d ∈ (runElectionTimerLoop se termStarted timeoutDuration times cm).timeoutsUsed →
      d = timeoutDuration
  | [], cm, d => by simp [runElectionTimerLoop]
  | now :: rest, cm, d => by
    simp only [runElectionTimerLoop]
    split
    · simp
    · intro hmem
      rcases List.mem_cons.mp hmem with h | h
      · exact h
      · exact loop_timeoutsUsed_eq se termStarted timeoutDuration rest _ d h

/-! ## Helper lemmas: term monotonicity and Dead absorption -/

theorem reportHigherTerm_term_le (peerTerm now : Int) (cm : ConsensusModule) :
    cm.currentTerm ≤ (reportHigherTerm peerTerm now cm).currentTerm := by
  unfold reportHigherTerm
  split
  · exact le_refl _
  · split
    · rename_i h
      exact le_of_lt h
    · exact le_refl _

theorem applyOp_term_le (cm : ConsensusModule) (op : Op) :
    cm.currentTerm ≤ (applyOp cm op).currentTerm := by
  cases op with
  | timerTick termStarted timeoutDuration now =>
    simp only [applyOp]
    cases htick : tickOutcome cm termStarted timeoutDuration now <;>
        simp [runElectionTimerTick, htick, startElection]
  | higherTerm peerTerm now =>
    exact reportHigherTerm_term_le peerTerm now cm
  | requestVote candidateTerm candidateId now =>
    simp only [applyOp]
    unfold handleRequestVote
    split
    · exact le_refl _
    · dsimp only
      split
      · exact reportHigherTerm_term_le candidateTerm now cm
      · exact reportHigherTerm_term_le candidateTerm now cm
  | winMajority term =>
    simp only [applyOp]
    unfold winElection
    split <;> exact le_refl _
  | shutdown =>
    exact le_refl _

theorem applyOps_term_le : ∀ (ops : List Op) (cm : ConsensusModule),
    cm.currentTerm ≤ (applyOps cm ops).currentTerm
  | [], _ => le_refl _
  | op :: rest, cm =>
    le_trans (applyOp_term_le cm op) (applyOps_term_le rest (applyOp cm op))

theorem applyOps_append : ∀ (l1 l2 : List Op) (cm : ConsensusModule),
    applyOps cm (l1 ++ l2) = applyOps (applyOps cm l1) l2
  | [], _, _ => rfl
  | op :: rest, l2, cm => applyOps_append rest l2 (applyOp cm op)

theorem applyOp_dead (cm : ConsensusModule) (op : Op)
    (h : cm.state = CMState.Dead) :
    (applyOp cm op).state = CMState.Dead := by
  cases op with
  | timerTick termStarted timeoutDuration now =>
    have hout : tickOutcome cm termStarted timeoutDuration now = TickOutcome.exitRole :=
      tickOutcome_exitRole _ _ _ _ (by simp [h])
    simp [applyOp, runElectionTimerTick, hout, h]
  | higherTerm peerTerm now =>
    simp [applyOp, reportHigherTerm, h]
  | requestVote candidateTerm candidateId now =>
    simp [applyOp, handleRequestVote, h]
  | winMajority term =>
    simp [applyOp, winElection, h]
  | shutdown =>
    simp [applyOp, stop]

theorem applyOps_dead : ∀ (ops : List Op) (cm : ConsensusModule),
    cm.state = CMState.Dead → (applyOps cm ops).state = CMState.Dead
  | [], _, h => h
  | op :: rest, cm, h =>
    applyOps_dead rest (applyOp cm op) (applyOp_dead cm op h)

/-! ## Helper lemmas: the timeout sample -/

theorem electionTimeout_bounds (r : Nat) :
    150 * millisecond ≤ electionTimeout r ∧ electionTimeout r ≤ 299 * millisecond := by
  have h : r % 150 < 150 := Nat.mod_lt _ (by decide)
  unfold electionTimeout millisecond
  constructor <;> push_cast <;> omega

theorem electionTimeout_hits (k : Nat) (h1 : 150 ≤ k) (h2 : k ≤ 299) :
    electionTimeout (k - 150) = (k : Int) * millisecond := by
  unfold electionTimeout millisecond
  have h : (k - 150) % 150 = k - 150 := Nat.mod_eq_of_lt (by omega)
  rw [h]
  push_cast
  omega

/-! ## Helper lemmas: lock-free network calls -/

theorem netFree_replyHandler (rest : List Event) :
    netFreeOfLocks [] (replyHandlerEvents ++ rest) = netFreeOfLocks [] rest := by
  simp [replyHandlerEvents, netFreeOfLocks]

theorem netFree_replicate : ∀ n : Nat,
    netFreeOfLocks [] (List.replicate n replyHandlerEvents).flatten = true
  | 0 => rfl
  | n + 1 => by
    rw [List.replicate_succ, List.flatten_cons, netFree_replyHandler]
    exact netFree_replicate n

theorem netFree_election (numPeers : Nat) :
    netFreeOfLocks [] (electionNetworkEvents numPeers) = true := by
  unfold electionNetworkEvents
  simp only [List.cons_append, List.nil_append]
  simp only [netFreeOfLocks]
  rw [show ([LockId.cmMu].erase LockId.cmMu) = [] from rfl]
  exact netFree_replicate numPeers

/-! ## Claim theorems -/

/-- C1: for every sequence of operations on a `ConsensusModule`,
`currentTerm` never decreases — observing it after a prefix `l1` of the
operation sequence and again after the longer prefix `l1 ++ l2` yields a
value at least as large the second time. -/
theorem currentTerm_monotone (cm : ConsensusModule) (l1 l2 : List Op) :
    (applyOps cm l1).currentTerm ≤ (applyOps cm (l1 ++ l2)).currentTerm := by
  rw [applyOps_append]
  exact applyOps_term_le l2 (applyOps cm l1)

/-- C2: on a tick where the state is still `Follower` or `Candidate`, the
term still equals the captured `termStarted`, and the elapsed time since
`electionResetEvent` is at least the sampled timeout, the timer calls
`startElection` and returns; and over any whole run of
`runElectionTimer`, `startElection` is called at most once. -/
theorem timer_fires_and_returns (se : ConsensusModule → ConsensusModule)
    (termStarted timeoutDuration now : Int) (cm : ConsensusModule)
    (hstate : cm.state = CMState.Follower ∨ cm.state = CMState.Candidate)
    (hterm : termStarted = cm.currentTerm)
    (helapsed : now - cm.electionResetEvent ≥ timeoutDuration) :
    runElectionTimerTick se termStarted timeoutDuration now cm = ⟨se cm, true, true⟩ ∧
    ∀ (r : Nat) (times : List Int) (cm0 : ConsensusModule),
      (runElectionTimer se r times cm0).fireCount ≤ 1 := by
  refine ⟨tick_fires se _ _ _ cm hstate hterm helapsed, ?_⟩
  intro r times cm0
  exact loop_fireCount_le_one se cm0.currentTerm (electionTimeout r) times cm0

/-- Witness for C2: a fresh follower at term 0 whose timeout of 3ms has
elapsed by instant 10000000ns fires the election on that tick. -/
theorem timer_fires_and_returns_witness :
    runElectionTimerTick (startElection 10) 0 (3 * millisecond) 10000000 cmFollower
      = ⟨startElection 10 cmFollower, true, true⟩ :=
  (timer_fires_and_returns (startElection 10) 0 (3 * millisecond) 10000000 cmFollower
    (Or.inl rfl) rfl (by decide)).1

/-- C3: on any tick where the state is neither `Follower` nor `Candidate`,
or where `currentTerm` differs from the captured `termStarted`, the tick
returns without calling `startElection` and without changing the module;
and the role check comes first — whenever the role is disqualified the
tick's outcome is `exitRole`, regardless of the term. -/
theorem timer_bails_without_election (se : ConsensusModule → ConsensusModule)
    (termStarted timeoutDuration now : Int) (cm : ConsensusModule)
    (h : (cm.state ≠ CMState.Candidate ∧ cm.state ≠ CMState.Follower) ∨
      termStarted ≠ cm.currentTerm) :
    runElectionTimerTick se termStarted timeoutDuration now cm = ⟨cm, true, false⟩ ∧
    (cm.state ≠ CMState.Candidate ∧ cm.state ≠ CMState.Follower →
      tickOutcome cm termStarted timeoutDuration now = TickOutcome.exitRole) :=
  ⟨tick_bails se _ _ _ cm h,
   fun hrole => tickOutcome_exitRole cm _ _ _ hrole⟩

/-- Witness for C3: a dead module whose term also moved on bails out with
the role outcome, unchanged. -/
theorem timer_bails_without_election_witness :
    runElectionTimerTick (startElection 0) 0 1 0 cmDead = ⟨cmDead, true, false⟩ ∧
    tickOutcome cmDead 0 1 0 = TickOutcome.exitRole := by
  have h := timer_bails_without_election (startElection 0) 0 1 0 cmDead
    (Or.inr (by decide))
  exact ⟨h.1, h.2 (by decide)⟩

/-- C4: every value `electionTimeout` returns lies in `[150ms, 300ms]`,
and the timeout is sampled once per `runElectionTimer` invocation — every
tick of a run compares against the very duration sampled at its start. -/
theorem timeout_in_range_sampled_once :
    (∀ r : Nat, 150 * millisecond ≤ electionTimeout r ∧
      electionTimeout r ≤ 300 * millisecond) ∧
    ∀ (se : ConsensusModule → ConsensusModule) (r : Nat) (times : List Int)
      (cm : ConsensusModule) (d : Int),
      d ∈ (runElectionTimer se r times cm).timeoutsUsed → d = electionTimeout r := by
  constructor
  · intro r
    have h := electionTimeout_bounds r
    refine ⟨h.1, le_trans h.2 ?_⟩
    unfold millisecond
    omega
  · intro se r times cm d hd
    exact loop_timeoutsUsed_eq se cm.currentTerm (electionTimeout r) times cm d hd

/-- Witness for C4: in a one-tick run with seed 5, the duration compared
against on the processed tick is `electionTimeout 5`. -/
theorem timeout_in_range_sampled_once_witness :
    (155 : Int) * millisecond = electionTimeout 5 :=
  timeout_in_range_sampled_once.2 (startElection 0) 5 [0] cmFollower
    ((155 : Int) * millisecond) (by decide)

/-- C5: when the peer table holds no live handle for `id` (entry absent or
nil), `Server.Call` returns the peer-unavailable error without invoking
any RPC; when a live handle is present, it forwards the call and returns
the RPC's own result. -/
theorem call_unavailable_or_forward {α β : Type} (s : Server)
    (rpc : Client → String → α → Except String β) (id : Int)
    (serviceMethod : String) (args : α) :
    (lookupGo s.peerClients id = none →
      ServerCall s rpc id serviceMethod args
        = (Except.error (CallError.peerUnavailable id), false)) ∧
    ∀ peer : Client, lookupGo s.peerClients id = some peer →
      ServerCall s rpc id serviceMethod args
        = (forwardRPC rpc peer serviceMethod args, true) := by
  constructor
  · intro h
    unfold ServerCall
    rw [h]
  · intro peer h
    unfold ServerCall
    rw [h]

/-- Witness for C5: on `serverEx`, calling torn-down peer 2 fails
immediately with no RPC performed, and calling live peer 1 forwards to
its handle. -/
theorem call_unavailable_or_forward_witness :
    ServerCall serverEx rpcEx 2 "ConsensusModule.RequestVote" 4
      = (Except.error (CallError.peerUnavailable 2), false) ∧
    ServerCall serverEx rpcEx 1 "ConsensusModule.RequestVote" 4
      = (forwardRPC rpcEx 11 "ConsensusModule.RequestVote" 4, true) :=
  ⟨(call_unavailable_or_forward serverEx rpcEx 2 "ConsensusModule.RequestVote" 4).1 rfl,
   (call_unavailable_or_forward serverEx rpcEx 1 "ConsensusModule.RequestVote" 4).2 11 rfl⟩

/-- C6: no network call happens while a lock is held — in the
`Server.Call` trace the handle lookup is under the server mutex, the RPC
is after its release; a timer tick performs no network call at all; and
the election's network phase keeps every network call outside the module
lock. -/
theorem no_network_call_under_lock (id : Int) (found fired : Bool) (numPeers : Nat) :
    netFreeOfLocks [] (serverCallEvents id found) = true ∧
    netFreeOfLocks [] (timerTickEvents fired) = true ∧
    netFreeOfLocks [] (electionNetworkEvents numPeers) = true := by
  refine ⟨?_, ?_, netFree_election numPeers⟩
  · cases found <;> rfl
  · cases fired <;> rfl

/-- C7: `Dead` is absorbing — a dead module stays dead under every
sequence of operations, and a timer tick observing `Dead` exits without
calling `startElection` and without any state change. -/
theorem dead_is_absorbing (cm : ConsensusModule) (ops : List Op)
    (h : cm.state = CMState.Dead) :
    (applyOps cm ops).state = CMState.Dead ∧
    ∀ (se : ConsensusModule → ConsensusModule) (termStarted timeoutDuration now : Int),
      runElectionTimerTick se termStarted timeoutDuration now cm = ⟨cm, true, false⟩ := by
  refine ⟨applyOps_dead ops cm h, fun se termStarted timeoutDuration now => ?_⟩
  refine tick_bails se termStarted timeoutDuration now cm (Or.inl ?_)
  rw [h]
  exact ⟨by simp, by simp⟩

/-- Witness for C7: the dead module stays dead through a higher-term
report, a timer tick and a majority transition. -/
theorem dead_is_absorbing_witness :
    (applyOps cmDead [Op.higherTerm 10 0, Op.timerTick 5 1 100, Op.winMajority 5]).state
      = CMState.Dead :=
  (dead_is_absorbing cmDead [Op.higherTerm 10 0, Op.timerTick 5 1 100, Op.winMajority 5]
    rfl).1

/-- C8: a tick of `runElectionTimer` never writes the module itself — the
module after a tick is exactly the original unless the tick called
`startElection`, in which case it is exactly `startElection`'s result. -/
theorem timer_frame (se : ConsensusModule → ConsensusModule)
    (termStarted timeoutDuration now : Int) (cm : ConsensusModule) :
    (runElectionTimerTick se termStarted timeoutDuration now cm).cm
      = (if (runElectionTimerTick se termStarted timeoutDuration now cm).firedElection
          then se cm else cm) :=
  tick_cm_ite se termStarted timeoutDuration now cm

/-- C9: `electionTimeout` always returns a whole number of milliseconds,
its image is exactly `{150ms, ..., 299ms}` — every value is of the form
`k` milliseconds with `150 ≤ k ≤ 299`, each such `k` is attained by the
seed `k - 150` — and the upper endpoint 300ms is never attained. -/
theorem timeout_exact_range :
    (∀ r : Nat, ∃ k : Nat, 150 ≤ k ∧ k ≤ 299 ∧
      electionTimeout r = (k : Int) * millisecond) ∧
    (∀ k : Nat, 150 ≤ k → k ≤ 299 →
      electionTimeout (k - 150) = (k : Int) * millisecond) ∧
    ∀ r : Nat, electionTimeout r < 300 * millisecond := by
  refine ⟨?_, ?_, ?_⟩
  · intro r
    have hm : r % 150 < 150 := Nat.mod_lt _ (by decide)
    exact ⟨150 + r % 150, by omega, by omega, rfl⟩
  · intro k h1 h2
    exact electionTimeout_hits k h1 h2
  · intro r
    have h := (electionTimeout_bounds r).2
    have h2 : (299 : Int) * millisecond < 300 * millisecond := by
      unfold millisecond
      omega
    exact lt_of_le_of_lt h h2

/-- Witness for C9: the top value 299ms is attained by seed 149. -/
theorem timeout_exact_range_witness :
    electionTimeout (299 - 150) = (299 : Int) * millisecond :=
  timeout_exact_range.2.1 299 (by decide) (by decide)

/-- C10: `Server.Call` is total over peer ids — an id that was never
registered makes the Go map lookup yield nil, and the call then returns
exactly the same peer-unavailable result it returns for a torn-down
(stored-nil) peer, with no RPC performed. -/
theorem call_total_absent_id {α β : Type} (s : Server)
    (rpc : Client → String → α → Except String β) (id : Int)
    (serviceMethod : String) (args : α)
    (habsent : s.peerClients.lookup id = none) :
    lookupGo s.peerClients id = none ∧
    ServerCall s rpc id serviceMethod args
      = (Except.error (CallError.peerUnavailable id), false) ∧
    ServerCall s rpc id serviceMethod args
      = ServerCall ⟨s.serverId, s.peerIds, [(id, none)]⟩ rpc id serviceMethod args := by
  have h1 : lookupGo s.peerClients id = none := by
    unfold lookupGo
    rw [habsent]
  have h2 : ServerCall s rpc id serviceMethod args
      = (Except.error (CallError.peerUnavailable id), false) := by
    unfold ServerCall
    rw [h1]
  refine ⟨h1, h2, ?_⟩
  rw [h2]
  unfold ServerCall lookupGo
  simp [List.lookup]

/-- Witness for C10: peer 3 was never registered on `serverEx`; calling
it fails with the peer-unavailable error and no RPC. -/
theorem call_total_absent_id_witness :
    ServerCall serverEx rpcEx 3 "ConsensusModule.RequestVote" 4
      = (Except.error (CallError.peerUnavailable 3), false) :=
  (call_total_absent_id serverEx rpcEx 3 "ConsensusModule.RequestVote" 4 (by decide)).2.1

end Raft
